import Mathlib

/-!
Verification of the osmo-prepare video-chunk preparation tool.

The development shallowly embeds the pure core of `src/osmo_prepare/main.py`
and `src/osmo_prepare/join.py`:

* the Grouper (`group_related_videos`), which partitions a listing of video
  filenames into groups keyed by the first eight characters, skipping files
  that match the fixed "already joined" pattern;
* the Concat-List Builder (`create_input_parameter_file`), which serializes
  an ordered file list into the external tool's list-file format;
* the progress parser (`parse_ffmpeg_progress`);
* the Process Runner (`join_videofile`), modelled over an explicit external
  environment describing the outcome of the subprocess invocation;
* the Orchestrator's per-group loop from `main`, modelled as a fold over the
  group list with an oracle supplying each group's join outcome;
* the argument guard of the secondary entry point (`join.py main`).

Python `dict` (insertion ordered) is embedded as an association list; Python
`list.sort()` on strings is embedded as `List.insertionSort` with the
lexicographic-by-code-point order on strings, which is the order Python
uses to compare `str` values.
-/

namespace OsmoPrepare

/-! ## Grouper: `group_related_videos` (main.py lines 200-252) -/

/-- Core of the regex `DJI_\d{4}\.MP4`: the char list is exactly `DJI_`,
four ASCII digits, then `.MP4`.  (Python `\d` also accepts non-ASCII decimal
digits; filenames produced by the camera are ASCII, and the development
models `\d` as ASCII digits.) -/
def isUnchunkedCore : List Char → Bool
  | 'D' :: 'J' :: 'I' :: '_' :: d1 :: d2 :: d3 :: d4 :: '.' :: 'M' :: 'P' :: '4' :: [] =>
      d1.isDigit && d2.isDigit && d3.isDigit && d4.isDigit
  | _ => false

/-- Embedding of `re.match(r"^DJI_\d{4}\.MP4$", filename)` being truthy.
`re.match` anchors at the start, and `$` matches at the end of the string or
just before a final newline, so the pattern accepts the core optionally
followed by one trailing newline.  No `re.IGNORECASE` flag is passed, so the
match is case sensitive. -/
def matchesUnchunked (s : String) : Bool :=
  isUnchunkedCore s.data
    || (s.data.getLast? == some '\n' && isUnchunkedCore s.data.dropLast)

/-- Lexicographic comparison of character lists by code point, the order
Python uses to compare `str` values. -/
def lexLe : List Char → List Char → Bool
  | [], _ => true
  | _ :: _, [] => false
  | a :: as, b :: bs =>
      if a.toNat < b.toNat then true
      else if b.toNat < a.toNat then false
      else lexLe as bs

/-- The comparison used by Python `list.sort()` on `str`: lexicographic by
code point over the strings' characters. -/
def strLe (a b : String) : Bool := lexLe a.data b.data

/-- `strLe` as a relation, the order the Grouper sorts group members by. -/
def SLe (a b : String) : Prop := strLe a b = true

instance : DecidableRel SLe := fun a b => instDecidableEqBool (strLe a b) true

/-- Appending `v` to the entry for key `k` of the insertion-ordered
association list `m`, creating the entry at the end if absent: the embedding
of `grouped.setdefault`-style update performed by lines 216-219 of
`group_related_videos` on a Python dict. -/
def insertGrouped : List (String × List String) → String → String → List (String × List String)
  | [], k, v => [(k, [v])]
  | (k2, vs) :: rest, k, v =>
      if k2 = k then (k2, vs ++ [v]) :: rest
      else (k2, vs) :: insertGrouped rest k v

/-- One iteration of the grouping loop (main.py lines 209-219): a filename
matching the unchunked pattern only bumps the skipped counter; any other
filename is appended to the group keyed by its first eight characters
(`filename[:8]`, the whole name when shorter). -/
def groupStep (acc : List (String × List String) × Nat) (fname : String) :
    List (String × List String) × Nat :=
  if matchesUnchunked fname then (acc.1, acc.2 + 1)
  else (insertGrouped acc.1 (fname.take 8) fname, acc.2)

/-- Embedding of `group_related_videos` (main.py lines 200-252): the grouping
loop followed by the per-group `sort()` of lines 221-222.  Python's
`list.sort()` is a stable sort under `SLe`; since `SLe` totally orders
strings and strings comparing equal under it are the same character
sequence, every sort under `SLe` produces the same list, so the
structurally recursive `List.insertionSort` is an equivalent embedding.
The `GroupInfo` table and console output are presentation only and carry no
further data; the function returns the grouped mapping and the skipped
count. -/
def group_related_videos (l : List String) : List (String × List String) × Nat :=
  let acc := l.foldl groupStep ([], 0)
  (acc.1.map (fun kv => (kv.1, List.insertionSort SLe kv.2)), acc.2)

/-- Total number of filenames stored in the grouped mapping. -/
def sizeSum (m : List (String × List String)) : Nat :=
  (m.map (fun kv => kv.2.length)).sum

/-! ## Concat-List Builder: `create_input_parameter_file` (main.py lines 255-260) -/

/-- Embedding of `create_input_parameter_file`: the file is opened with mode
`"w"` (truncating any prior artifact, so the content starts empty) and the
loop appends, for each filename in input order, the text
`file '` + filename + `'\n`.  The result is the final content of
`filelist.txt`.  Quotes inside a filename are interpolated verbatim. -/
def create_input_parameter_file (filenames : List String) : String :=
  filenames.foldl (fun acc fname => acc ++ ("file '" ++ fname ++ "'\n")) ""

/-! ## Progress parser: `parse_ffmpeg_progress` (main.py lines 263-288) -/

/-- Decimal value of an ASCII digit character. -/
def digitVal (c : Char) : Nat := c.toNat - 48

/-- Decimal value of a digit string, as computed by Python `int` on the
captured group. -/
def digitsToNat (ds : List Char) : Nat :=
  ds.foldl (fun n c => n * 10 + digitVal c) 0

/-- Matching of the regex `time=(\d{2}):(\d{2}):(\d{2}\.\d{2})` at the head
of the character list: the literal `time=`, two digits, `:`, two digits,
`:`, two digits, `.`, two digits.  All quantifiers are fixed-width, so the
regex matches at a position exactly when this literal check succeeds.
Returns the parsed hours, minutes and integer seconds.  The fractional
digits are matched but contribute nothing to the result: the source
computes `int(hours*3600 + minutes*60 + float("SS.ff"))`, and since the
float value of `"SS.ff"` always lies in the half-open interval from `SS`
to `SS + 1`, the truncation yields exactly `hours*3600 + minutes*60 + SS`. -/
def timeAt : List Char → Option (Nat × Nat × Nat)
  | 't' :: 'i' :: 'm' :: 'e' :: '=' :: h1 :: h2 :: ':' :: m1 :: m2 :: ':'
      :: s1 :: s2 :: '.' :: f1 :: f2 :: _ =>
      if h1.isDigit && h2.isDigit && m1.isDigit && m2.isDigit && s1.isDigit
          && s2.isDigit && f1.isDigit && f2.isDigit then
        some (digitVal h1 * 10 + digitVal h2,
              digitVal m1 * 10 + digitVal m2,
              digitVal s1 * 10 + digitVal s2)
      else none
  | _ => none

/-- Embedding of `re.search` for the time pattern: the leftmost position at
which the pattern matches, scanning left to right. -/
def searchTime : List Char → Option (Nat × Nat × Nat)
  | [] => none
  | c :: rest =>
      match timeAt (c :: rest) with
      | some r => some r
      | none => searchTime rest

/-- Matching of the regex `size=(\d+)kB` at the head of the character list:
the literal `size=`, a non-empty digit run, then the literal `kB`.  The
greedy `\d+` can only succeed with the maximal digit run, since giving back
a digit would require matching `k` against a digit.  Returns the numeric
value of the digit run. -/
def sizeAt (cs : List Char) : Option Nat :=
  match cs with
  | 's' :: 'i' :: 'z' :: 'e' :: '=' :: rest =>
      let ds := rest.takeWhile (fun c => c.isDigit)
      if ds.isEmpty then none
      else
        match rest.drop ds.length with
        | 'k' :: 'B' :: _ => some (digitsToNat ds)
        | _ => none
  | _ => none

/-- Embedding of `re.search` for the size pattern: leftmost match. -/
def searchSize : List Char → Option Nat
  | [] => none
  | c :: rest =>
      match sizeAt (c :: rest) with
      | some r => some r
      | none => searchSize rest

/-- Embedding of `parse_ffmpeg_progress` (main.py lines 263-288).  An empty
line returns `none` (the `if not stderr_line` guard).  Otherwise the time
pattern is searched first; only when it matches is the size pattern
consulted, with a missing size match reported as `0` output bytes.  The
Python result triple carries a constant `0.0` float in its first position
(a placeholder `progress_percent`); the embedding returns the two
informative components, `(current_seconds, output_bytes)`.  The
`ValueError`/`AttributeError` handler is dead in this model: every matched
digit group parses. -/
def parse_ffmpeg_progress (line : String) : Option (Nat × Nat) :=
  if line.data.isEmpty then none
  else
    match searchTime line.data with
    | none => none
    | some (h, m, s) =>
        let currentSeconds := h * 3600 + m * 60 + s
        let outputBytes :=
          match searchSize line.data with
          | some k => k * 1024
          | none => 0
        some (currentSeconds, outputBytes)

/-! ## Process Runner: `join_videofile` (main.py lines 291-351)

The subprocess invocation and the filesystem are external effects; the
embedding makes them explicit.  A filesystem is a partial map from paths to
sizes (`none` meaning the path cannot be stat'd, in which case
`os.path.getsize` raises `OSError`).  A `ToolEnv` describes how the
external invocation goes: the `ffmpeg` binary may be missing (`Popen`
raises `FileNotFoundError`), the invocation may raise some other
`Exception`, the user may interrupt (`KeyboardInterrupt`, which the source
does not catch here, since it only catches `Exception`), or the process
runs to termination with an exit code, a stream of diagnostic lines (as
yielded by iterating `process.stderr`, each retaining its newline), and a
final state of the output path on disk.  The streaming loop of lines
330-337 also folds the diagnostic lines through `parse_ffmpeg_progress`
into `last_output_size`, but that variable is never used afterwards, so the
result does not depend on it; the parser is verified separately. -/

/-- A filesystem: maps a path to the size of the file there, or `none` when
the path does not exist or cannot be stat'd. -/
def FS : Type := String → Option Nat

/-- Embedding of `formatters.get_file_size`: `os.path.getsize`, with any
`OSError` silently mapped to `0`. -/
def get_file_size (fs : FS) (p : String) : Nat := (fs p).getD 0

/-- Embedding of `os.path.join(processed_dir, output_filename + ".MP4")`
for a directory path without a trailing separator. -/
def output_path (dir name : String) : String := dir ++ "/" ++ name ++ ".MP4"

/-- Outcome of attempting the external `ffmpeg` invocation. -/
inductive ToolEnv where
  | notInstalled
  | installed (exitCode : Int) (stderrLines : List String) (outputWritten : Option Nat)
  | otherError (msg : String)
  | interrupted

/-- Pointwise filesystem update at one path. -/
def fsUpdate (fs : FS) (p : String) (v : Option Nat) : FS :=
  fun q => if q = p then v else fs q

/-- Embedding of `join_videofile` (main.py lines 291-351), returning the
Python result triple `(success, error_message, output_size)` together with
the filesystem after the attempt; `Except.error` models an uncaught
`KeyboardInterrupt` propagating past the function. -/
def join_videofile (dir name : String) (env : ToolEnv) (fs : FS) :
    Except Unit ((Bool × String × Nat) × FS) :=
  match env with
  | .notInstalled => .ok ((false, "FFmpeg not found. Please install FFmpeg.", 0), fs)
  | .otherError msg => .ok ((false, msg, 0), fs)
  | .interrupted => .error ()
  | .installed exitCode lines out =>
      let fs2 := fsUpdate fs (output_path dir name) out
      if exitCode = 0 then
        .ok ((true, "", get_file_size fs2 (output_path dir name)), fs2)
      else
        .ok ((false, String.join lines, 0), fs2)

/-! ## Orchestrator per-group loop (main.py lines 497-527)

The loop iterates over the groups in ascending key order.  For each group
it writes the concat list, calls `join_videofile`, and on success deletes
the group's chunk files and bumps the counters, while on failure it appends
the error record `("Join Failed", "Could not join " + name, error_msg)` and
moves on to the next group.  The embedding abstracts each group's join
outcome into an oracle and tracks the loop-carried state: the counters, the
error list, and the set of chunk files still present in the staging
directory (`delete_input_files` removes exactly the group's members;
deletion failures are logged warnings that leave the model's state
unchanged only for the affected file, and the model takes deletions to
succeed). -/

/-- Result triple of one `join_videofile` call, as seen by the loop. -/
structure JoinOutcome where
  success : Bool
  errorMsg : String
  outputSize : Nat

/-- Loop-carried state of the per-group loop. -/
structure LoopState where
  groupsProcessed : Nat
  filesJoined : Nat
  totalOutputSize : Nat
  errors : List (String × String × String)
  staged : List String

/-- The error record appended for a failed group. -/
def joinErrorRecord (name : String) (errorMsg : String) : String × String × String :=
  ("Join Failed", "Could not join " ++ name, errorMsg)

/-- One iteration of the per-group loop (main.py lines 497-527). -/
def processGroup (oracle : String → JoinOutcome) (st : LoopState)
    (g : String × List String) : LoopState :=
  let r := oracle g.1
  if r.success then
    ⟨st.groupsProcessed + 1, st.filesJoined + 1, st.totalOutputSize + r.outputSize,
     st.errors, st.staged.filter (fun f => !(g.2.contains f))⟩
  else
    ⟨st.groupsProcessed, st.filesJoined, st.totalOutputSize,
     st.errors ++ [joinErrorRecord g.1 r.errorMsg], st.staged⟩

/-- The whole per-group loop over a list of groups. -/
def runGroups (oracle : String → JoinOutcome) (st : LoopState)
    (groups : List (String × List String)) : LoopState :=
  groups.foldl (processGroup oracle) st

/-- The loop state at the start of the per-group phase. -/
def initState (staged : List String) : LoopState := ⟨0, 0, 0, [], staged⟩

/-! ## Secondary entry point argument guard (join.py lines 116-124) -/

/-- What the secondary entry point does with its argument vector. -/
inductive ArgCheck where
  | helpExit1
  | proceed (outputName : String) (inputFiles : List String)
deriving DecidableEq

/-- Embedding of the argument handling at the top of `join.py main`:
`sys.argv` includes the program name at index 0; when `len(sys.argv) < 3`
the program shows help and exits with status 1, and otherwise it proceeds
with `sys.argv[1]` as the output base name and `sys.argv[2:]` as the input
files. -/
def join_main_args (argv : List String) : ArgCheck :=
  if argv.length < 3 then .helpExit1
  else .proceed (argv.getD 1 "") (argv.drop 2)

/-! ## Order properties of `lexLe` -/

theorem lexLe_total : ∀ as bs, lexLe as bs = true ∨ lexLe bs as = true
  | [], _ => Or.inl (by simp [lexLe])
  | _ :: _, [] => Or.inr (by simp [lexLe])
  | a :: as, b :: bs => by
      by_cases hab : a.toNat < b.toNat
      · exact Or.inl (by simp [lexLe, hab])
      · by_cases hba : b.toNat < a.toNat
        · exact Or.inr (by simp [lexLe, hba])
        · rcases lexLe_total as bs with h | h
          · exact Or.inl (by simp [lexLe, hab, hba, h])
          · exact Or.inr (by simp [lexLe, hab, hba, h])

theorem lexLe_trans :
    ∀ as bs cs, lexLe as bs = true → lexLe bs cs = true → lexLe as cs = true
  | [], _, _, _, _ => by simp [lexLe]
  | _ :: _, [], _, h1, _ => by simp [lexLe] at h1
  | _ :: _, _ :: _, [], _, h2 => by simp [lexLe] at h2
  | a :: as, b :: bs, c :: cs, h1, h2 => by
      by_cases hab : a.toNat < b.toNat
      · by_cases hbc : b.toNat < c.toNat
        · have hac : a.toNat < c.toNat := lt_trans hab hbc
          simp [lexLe, hac]
        · by_cases hcb : c.toNat < b.toNat
          · simp [lexLe, hbc, hcb] at h2
          · have hac : a.toNat < c.toNat := by omega
            simp [lexLe, hac]
      · by_cases hba : b.toNat < a.toNat
        · simp [lexLe, hab, hba] at h1
        · simp only [lexLe, if_neg hab, if_neg hba] at h1
          by_cases hbc : b.toNat < c.toNat
          · have hac : a.toNat < c.toNat := by omega
            simp [lexLe, hac]
          · by_cases hcb : c.toNat < b.toNat
            · simp [lexLe, hbc, hcb] at h2
            · simp only [lexLe, if_neg hbc, if_neg hcb] at h2
              have hac : ¬ a.toNat < c.toNat := by omega
              have hca : ¬ c.toNat < a.toNat := by omega
              simp only [lexLe, if_neg hac, if_neg hca]
              exact lexLe_trans as bs cs h1 h2

instance : IsTotal String SLe := ⟨fun a b => lexLe_total a.data b.data⟩

instance : IsTrans String SLe := ⟨fun a b c => lexLe_trans a.data b.data c.data⟩

/-! ## Grouper lemmas -/

theorem sizeSum_cons (k : String) (vs : List String) (m : List (String × List String)) :
    sizeSum ((k, vs) :: m) = vs.length + sizeSum m := by
  simp [sizeSum]

theorem sizeSum_insertGrouped :
    ∀ (m : List (String × List String)) (k v : String),
      sizeSum (insertGrouped m k v) = sizeSum m + 1
  | [], k, v => by simp [insertGrouped, sizeSum]
  | (k2, vs) :: rest, k, v => by
      by_cases h : k2 = k
      · simp [insertGrouped, h, sizeSum_cons]
        omega
      · simp only [insertGrouped, if_neg h, sizeSum_cons,
          sizeSum_insertGrouped rest k v]
        omega

theorem insertGrouped_forall (P : String → String → Prop) :
    ∀ (m : List (String × List String)) (k v : String),
      (∀ kv ∈ m, ∀ x ∈ kv.2, P kv.1 x) → P k v →
      ∀ kv ∈ insertGrouped m k v, ∀ x ∈ kv.2, P kv.1 x
  | [], k, v, _, hv => by
      intro kv hkv x hx
      simp [insertGrouped] at hkv
      subst hkv
      simp at hx
      subst hx
      exact hv
  | (k2, vs) :: rest, k, v, hm, hv => by
      intro kv hkv x hx
      by_cases h : k2 = k
      · simp only [insertGrouped, if_pos h] at hkv
        rcases List.mem_cons.mp hkv with hkv | hkv
        · subst hkv
          rcases List.mem_append.mp hx with hx | hx
          · exact hm (k2, vs) (List.mem_cons_self _ _) x hx
          · simp at hx
            subst hx
            rw [h]
            exact hv
        · exact hm kv (List.mem_cons_of_mem _ hkv) x hx
      · simp only [insertGrouped, if_neg h] at hkv
        rcases List.mem_cons.mp hkv with hkv | hkv
        · subst hkv
          exact hm (k2, vs) (List.mem_cons_self _ _) x hx
        · exact insertGrouped_forall P rest k v
            (fun kv2 hkv2 => hm kv2 (List.mem_cons_of_mem _ hkv2)) hv kv hkv x hx

/-- Invariant of the grouping loop: every stored member has the group key as
its first eight characters and does not match the unchunked pattern, and
the stored-member count plus the skipped count grows by one per processed
filename, with the skipped count counting exactly the pattern matches. -/
theorem foldl_groupStep_inv :
    ∀ (l : List String) (acc : List (String × List String) × Nat),
      (∀ kv ∈ acc.1, ∀ x ∈ kv.2, x.take 8 = kv.1 ∧ matchesUnchunked x = false) →
      (∀ kv ∈ (l.foldl groupStep acc).1, ∀ x ∈ kv.2,
          x.take 8 = kv.1 ∧ matchesUnchunked x = false)
      ∧ sizeSum (l.foldl groupStep acc).1 + (l.foldl groupStep acc).2
          = sizeSum acc.1 + acc.2 + l.length
      ∧ (l.foldl groupStep acc).2 = acc.2 + (l.filter matchesUnchunked).length
  | [], acc, hacc => by
      refine ⟨hacc, ?_, ?_⟩ <;> simp
  | f :: l, acc, hacc => by
      by_cases h : matchesUnchunked f
      · have step : groupStep acc f = (acc.1, acc.2 + 1) := by
          simp [groupStep, h]
        have ih := foldl_groupStep_inv l (acc.1, acc.2 + 1) hacc
        rw [List.foldl_cons, step]
        refine ⟨ih.1, ?_, ?_⟩
        · rw [ih.2.1]; simp; omega
        · rw [ih.2.2]; simp [h]; omega
      · have step : groupStep acc f = (insertGrouped acc.1 (f.take 8) f, acc.2) := by
          simp [groupStep, h]
        have hacc2 : ∀ kv ∈ insertGrouped acc.1 (f.take 8) f, ∀ x ∈ kv.2,
            x.take 8 = kv.1 ∧ matchesUnchunked x = false :=
          insertGrouped_forall (fun k x => x.take 8 = k ∧ matchesUnchunked x = false)
            acc.1 (f.take 8) f hacc ⟨rfl, by simpa using h⟩
        have ih := foldl_groupStep_inv l (insertGrouped acc.1 (f.take 8) f, acc.2) hacc2
        rw [List.foldl_cons, step]
        refine ⟨ih.1, ?_, ?_⟩
        · rw [ih.2.1]
          simp only [sizeSum_insertGrouped]
          simp
          omega
        · rw [ih.2.2]; simp [h]

/-- Properties transported through the final per-group sort: the sort is a
permutation, so memberships and lengths are unchanged. -/
theorem mem_group_related_videos (l : List String) (kv : String × List String)
    (hkv : kv ∈ (group_related_videos l).1) :
    ∃ kv0 ∈ (l.foldl groupStep ([], 0)).1,
      kv = (kv0.1, List.insertionSort SLe kv0.2) := by
  simp only [group_related_videos, List.mem_map] at hkv
  rcases hkv with ⟨kv0, hkv0, hkv⟩
  exact ⟨kv0, hkv0, hkv.symm⟩

theorem sizeSum_map_sort (m : List (String × List String)) :
    sizeSum (m.map (fun kv => (kv.1, List.insertionSort SLe kv.2))) = sizeSum m := by
  simp [sizeSum, List.map_map, Function.comp_def, List.length_insertionSort]

/-! ## Claim theorems: the Grouper -/

/-- Claim C1: for every input list of filenames, every group's members all
have a first-8-character prefix equal to the group's key, and the number of
filenames placed into groups plus the skipped count equals the length of
the input list, so no filename is lost or duplicated. -/
theorem grouper_partition (l : List String) :
    (∀ kv ∈ (group_related_videos l).1, ∀ x ∈ kv.2, x.take 8 = kv.1)
    ∧ sizeSum (group_related_videos l).1 + (group_related_videos l).2 = l.length := by
  have inv := foldl_groupStep_inv l ([], 0) (by simp)
  constructor
  · intro kv hkv x hx
    rcases mem_group_related_videos l kv hkv with ⟨kv0, hkv0, rfl⟩
    have hx' : x ∈ kv0.2 := ((List.perm_insertionSort SLe kv0.2).mem_iff).mp hx
    exact (inv.1 kv0 hkv0 x hx').1
  · have hsz : sizeSum (group_related_videos l).1
        = sizeSum (l.foldl groupStep ([], 0)).1 := by
      simp only [group_related_videos]
      exact sizeSum_map_sort _
    have hsk : (group_related_videos l).2 = (l.foldl groupStep ([], 0)).2 := rfl
    rw [hsz, hsk, inv.2.1]
    simp [sizeSum]

/-- Witness for claim C1 at a concrete three-element listing containing two
chunks of one recording and one already-joined file. -/
theorem grouper_partition_witness :
    ("DJI_08011234.MP4" : String).take 8 = "DJI_0801"
    ∧ sizeSum (group_related_videos
          ["DJI_08015678.MP4", "DJI_08011234.MP4", "DJI_0001.MP4"]).1
        + (group_related_videos
          ["DJI_08015678.MP4", "DJI_08011234.MP4", "DJI_0001.MP4"]).2
        = (["DJI_08015678.MP4", "DJI_08011234.MP4", "DJI_0001.MP4"] : List String).length :=
  ⟨(grouper_partition ["DJI_08015678.MP4", "DJI_08011234.MP4", "DJI_0001.MP4"]).1
      ("DJI_0801", ["DJI_08011234.MP4", "DJI_08015678.MP4"]) (by decide)
      "DJI_08011234.MP4" (by decide),
   (grouper_partition ["DJI_08015678.MP4", "DJI_08011234.MP4", "DJI_0001.MP4"]).2⟩

/-- Counterexample to claim C2: the unchunked pattern is matched without
`re.IGNORECASE`, so the lowercase form `dji_0001.mp4` does not match, and
the Grouper places it into a group keyed `dji_0001` with a skipped count of
zero, instead of skipping it as the claim states for lowercase forms. -/
theorem grouper_lowercase_not_skipped :
    matchesUnchunked "dji_0001.mp4" = false
    ∧ group_related_videos ["dji_0001.mp4"] = ([("dji_0001", ["dji_0001.mp4"])], 0) :=
  ⟨rfl, by decide⟩

/-- Claim C2 (amended): for every filename matching the unchunked pattern
case-sensitively (`DJI_` then exactly four digits then `.MP4`, uppercase as
written), the Grouper never places that filename into any group and
increments the skipped count by exactly one per such filename; lowercase
forms do not match and are grouped normally. -/
theorem grouper_skips_unchunked (l : List String) :
    (group_related_videos l).2 = (l.filter matchesUnchunked).length
    ∧ ∀ kv ∈ (group_related_videos l).1, ∀ x ∈ kv.2, matchesUnchunked x = false := by
  have inv := foldl_groupStep_inv l ([], 0) (by simp)
  constructor
  · show (l.foldl groupStep ([], 0)).2 = _
    rw [inv.2.2]
    simp
  · intro kv hkv x hx
    rcases mem_group_related_videos l kv hkv with ⟨kv0, hkv0, rfl⟩
    have hx' : x ∈ kv0.2 := ((List.perm_insertionSort SLe kv0.2).mem_iff).mp hx
    exact (inv.1 kv0 hkv0 x hx').2

/-- Witness for the amended claim C2 at a concrete listing with one
already-joined file and one chunk file. -/
theorem grouper_skips_unchunked_witness :
    (group_related_videos ["DJI_0001.MP4", "DJI_08011234.MP4"]).2
        = ((["DJI_0001.MP4", "DJI_08011234.MP4"] : List String).filter
            matchesUnchunked).length
    ∧ matchesUnchunked "DJI_08011234.MP4" = false :=
  ⟨(grouper_skips_unchunked ["DJI_0001.MP4", "DJI_08011234.MP4"]).1,
   (grouper_skips_unchunked ["DJI_0001.MP4", "DJI_08011234.MP4"]).2
      ("DJI_0801", ["DJI_08011234.MP4"]) (by decide) "DJI_08011234.MP4" (by decide)⟩

/-- Claim C7: each group's member list is sorted in case-sensitive
lexicographic (by code point) order of the full filename, and re-running
the Grouper on the same input yields identical results: the embedding is a
function of the input list alone, so determinism and idempotence of
re-running hold by reflexivity. -/
theorem grouper_sorted_idempotent (l : List String) :
    (∀ kv ∈ (group_related_videos l).1, List.Sorted SLe kv.2)
    ∧ group_related_videos l = group_related_videos l := by
  refine ⟨?_, rfl⟩
  intro kv hkv
  rcases mem_group_related_videos l kv hkv with ⟨kv0, _, rfl⟩
  exact List.sorted_insertionSort SLe kv0.2

/-- Witness for claim C7: the group produced from two out-of-order chunk
names is sorted. -/
theorem grouper_sorted_idempotent_witness :
    List.Sorted SLe ["DJI_08011234.MP4", "DJI_08015678.MP4"] :=
  (grouper_sorted_idempotent ["DJI_08015678.MP4", "DJI_08011234.MP4"]).1
    ("DJI_0801", ["DJI_08011234.MP4", "DJI_08015678.MP4"]) (by decide)

/-! ## Claim theorems: the Concat-List Builder -/

theorem string_join_cons (s : String) (l : List String) :
    String.join (s :: l) = s ++ String.join l := by
  rw [String.join_eq, String.join_eq]
  rfl

theorem create_foldl_acc :
    ∀ (l : List String) (acc : String),
      l.foldl (fun a fname => a ++ ("file '" ++ fname ++ "'\n")) acc
        = acc ++ String.join (l.map (fun fname => "file '" ++ fname ++ "'\n"))
  | [], acc => by
      apply String.ext
      simp [String.join_eq]
  | f :: l, acc => by
      rw [List.foldl_cons, create_foldl_acc l, List.map_cons, string_join_cons,
        String.append_assoc]

theorem create_eq_join (l : List String) :
    create_input_parameter_file l
      = String.join (l.map (fun fname => "file '" ++ fname ++ "'\n")) := by
  have h := create_foldl_acc l ""
  rw [create_input_parameter_file, h]
  apply String.ext
  simp

/-- Claim C6: the Concat-List Builder writes exactly one line per filename,
in input order, each line being `file`, a space, the single-quoted
filename, and a newline, with no escaping of quotes inside filenames; and
the two-element example produces exactly the claimed text. -/
theorem concat_list_format :
    create_input_parameter_file ["DJI_08011234.MP4", "DJI_08015678.MP4"]
      = "file 'DJI_08011234.MP4'\nfile 'DJI_08015678.MP4'\n"
    ∧ create_input_parameter_file [] = ""
    ∧ ∀ (f : String) (rest : List String),
        create_input_parameter_file (f :: rest)
          = ("file '" ++ f ++ "'\n") ++ create_input_parameter_file rest := by
  refine ⟨by decide, rfl, ?_⟩
  intro f rest
  rw [create_eq_join, create_eq_join, List.map_cons, string_join_cons]

/-! ## Claim theorems: the progress parser -/

/-- Counterexample to claim C5: a diagnostic line that contains the size
pattern but no time pattern produces no signal at all, because the source
only consults the size regex after the time regex has matched. -/
theorem parse_progress_size_only_counterexample :
    searchSize ("size=5kB" : String).data = some 5
    ∧ parse_ffmpeg_progress "size=5kB" = none := ⟨rfl, rfl⟩

/-- Claim C5 (amended): for every diagnostic line on which the time pattern
matches, the parser returns a signal, and when the size pattern
(`size=` then digits then `kB`) also matches with value `k`, the
output-size component equals `k * 1024` bytes; a line matching the size
pattern alone yields no signal. -/
theorem parse_progress_size_signal (line : String) (h m s k : Nat)
    (ht : searchTime line.data = some (h, m, s))
    (hk : searchSize line.data = some k) :
    parse_ffmpeg_progress line = some (h * 3600 + m * 60 + s, k * 1024) := by
  have hne : line.data.isEmpty = false := by
    cases hd : line.data with
    | nil => rw [hd] at ht; simp [searchTime] at ht
    | cons a l => rfl
  simp [parse_ffmpeg_progress, hne, ht, hk]

/-- Witness for the amended claim C5 at a concrete line carrying both
patterns. -/
theorem parse_progress_size_signal_witness :
    searchTime ("time=00:00:01.00 size=5kB" : String).data = some (0, 0, 1)
    ∧ searchSize ("time=00:00:01.00 size=5kB" : String).data = some 5
    ∧ parse_ffmpeg_progress "time=00:00:01.00 size=5kB"
        = some (0 * 3600 + 0 * 60 + 1, 5 * 1024) :=
  ⟨rfl, rfl, parse_progress_size_signal "time=00:00:01.00 size=5kB" 0 0 1 5 rfl rfl⟩

/-! ## Claim theorems: the Process Runner -/

/-- Claim C3: the Runner waits for the external process; on zero exit it
returns success with the on-disk size of the output artifact as queried
from the filesystem after the run; on non-zero exit it returns failure with
the full concatenated diagnostic text and a zero size; a missing binary or
any other invocation error is returned as a failure rather than raised; the
only outcome that propagates past the boundary is a forced cancellation. -/
theorem join_videofile_contract (dir name : String) (lines : List String)
    (out : Option Nat) (fs : FS) (ec : Int) (hec : ec ≠ 0) (msg : String) :
    join_videofile dir name (.installed 0 lines out) fs
      = .ok ((true, "",
          get_file_size (fsUpdate fs (output_path dir name) out) (output_path dir name)),
          fsUpdate fs (output_path dir name) out)
    ∧ join_videofile dir name (.installed ec lines out) fs
      = .ok ((false, String.join lines, 0), fsUpdate fs (output_path dir name) out)
    ∧ join_videofile dir name .notInstalled fs
      = .ok ((false, "FFmpeg not found. Please install FFmpeg.", 0), fs)
    ∧ join_videofile dir name (.otherError msg) fs = .ok ((false, msg, 0), fs)
    ∧ join_videofile dir name .interrupted fs = .error () := by
  refine ⟨rfl, ?_, rfl, rfl, rfl⟩
  simp [join_videofile, hec]

/-- Witness for claim C3 at a concrete failing invocation. -/
theorem join_videofile_contract_witness :
    ((1 : Int) ≠ 0)
    ∧ join_videofile "p" "n" (.installed 1 ["boom\n"] (some 42)) (fun _ => none)
        = .ok ((false, String.join ["boom\n"], 0),
               fsUpdate (fun _ => none) (output_path "p" "n") (some 42)) :=
  ⟨by decide,
   (join_videofile_contract "p" "n" ["boom\n"] (some 42) (fun _ => none) 1
      (by decide) "m").2.1⟩

/-- Claim C9: when the tool binary cannot be located, the Runner returns a
failure carrying the distinguished "tool not installed" message without
running anything, and the filesystem is unchanged, so no output file is
created by the attempt. -/
theorem join_videofile_tool_missing (dir name : String) (fs : FS) :
    join_videofile dir name .notInstalled fs
      = .ok ((false, "FFmpeg not found. Please install FFmpeg.", 0), fs) := rfl

/-- Claim C10: on zero exit with the output artifact absent (or not
stat-able), the size query maps the OS error to 0 and the Runner still
returns success with a reported output size of 0 bytes. -/
theorem join_videofile_missing_output (dir name : String) (lines : List String) (fs : FS) :
    get_file_size (fsUpdate fs (output_path dir name) none) (output_path dir name) = 0
    ∧ join_videofile dir name (.installed 0 lines none) fs
      = .ok ((true, "", 0), fsUpdate fs (output_path dir name) none) := by
  constructor
  · simp [get_file_size, fsUpdate]
  · simp [join_videofile, get_file_size, fsUpdate]

/-! ## Claim theorems: the secondary entry point guard -/

/-- Claim C8 is refuted by the code: with the base name and exactly one
file argument (`len(sys.argv) == 3`), the guard `len(sys.argv) < 3` does
not fire, so the program proceeds to build the list and join a single
file instead of displaying help and exiting; the guard only fires with
zero file arguments.  This contradicts the program's own help text, which
says it joins 2 or more video files. -/
theorem join_args_guard_single_file :
    join_main_args ["osmo-join", "combined"] = .helpExit1
    ∧ join_main_args ["osmo-join", "combined", "video1.mp4"]
        = .proceed "combined" ["video1.mp4"] := ⟨rfl, rfl⟩

/-! ## Orchestrator loop lemmas -/

theorem runGroups_cons (o : String → JoinOutcome) (st : LoopState)
    (g : String × List String) (gs : List (String × List String)) :
    runGroups o st (g :: gs) = runGroups o (processGroup o st g) gs := rfl

theorem runGroups_processed (o : String → JoinOutcome) :
    ∀ (gs : List (String × List String)) (st : LoopState),
      (runGroups o st gs).groupsProcessed
        = st.groupsProcessed + (gs.filter (fun g => (o g.1).success)).length
  | [], st => by simp [runGroups]
  | g :: gs, st => by
      rw [runGroups_cons, runGroups_processed o gs]
      by_cases h : (o g.1).success
      · simp [processGroup, h, List.filter_cons]
        omega
      · simp [processGroup, h, List.filter_cons]

/-- The error record a group contributes, if any. -/
def failRecord (o : String → JoinOutcome) (g : String × List String) :
    Option (String × String × String) :=
  if (o g.1).success then none else some (joinErrorRecord g.1 (o g.1).errorMsg)

theorem runGroups_errors (o : String → JoinOutcome) :
    ∀ (gs : List (String × List String)) (st : LoopState),
      (runGroups o st gs).errors = st.errors ++ gs.filterMap (failRecord o)
  | [], st => by simp [runGroups]
  | g :: gs, st => by
      rw [runGroups_cons, runGroups_errors o gs]
      by_cases h : (o g.1).success
      · simp [processGroup, h, failRecord, List.filterMap_cons]
      · simp [processGroup, h, failRecord, List.filterMap_cons]

theorem runGroups_staged (o : String → JoinOutcome) :
    ∀ (gs : List (String × List String)) (st : LoopState) (f : String),
      f ∈ (runGroups o st gs).staged
        ↔ (f ∈ st.staged ∧ ∀ g ∈ gs, (o g.1).success = true → f ∉ g.2)
  | [], st, f => by simp [runGroups]
  | g :: gs, st, f => by
      rw [runGroups_cons, runGroups_staged o gs]
      by_cases h : (o g.1).success
      · simp only [processGroup, h, if_true, List.forall_mem_cons]
        rw [List.mem_filter]
        simp [h, List.elem_iff, and_assoc]
      · simp only [processGroup, h, Bool.false_eq_true, if_false, List.forall_mem_cons]
        simp [h]

theorem length_filterMap_fail (o : String → JoinOutcome) :
    ∀ gs : List (String × List String),
      (gs.filterMap (failRecord o)).length
        = (gs.filter (fun g => !(o g.1).success)).length
  | [] => rfl
  | g :: gs => by
      by_cases h : (o g.1).success
      · simp [failRecord, h, List.filterMap_cons, List.filter_cons,
          length_filterMap_fail o gs]
      · simp [failRecord, h, List.filterMap_cons, List.filter_cons,
          length_filterMap_fail o gs]

/-- Claim C4: in a run of three groups where exactly one join fails, all
three groups are attempted (succeeded plus failed counts cover the whole
list), two are counted succeeded and one failed, the failed group's error
record with the tool's raw diagnostic text is collected, and the failed
group's chunk files stay in the staging directory (they are deleted only by
a successful join of a group containing them). -/
theorem orchestrator_failure_isolation
    (gs : List (String × List String)) (o : String → JoinOutcome) (staged0 : List String)
    (hlen : gs.length = 3)
    (hone : (gs.filter (fun g => !(o g.1).success)).length = 1) :
    (runGroups o (initState staged0) gs).groupsProcessed = 2
    ∧ (runGroups o (initState staged0) gs).errors.length = 1
    ∧ (runGroups o (initState staged0) gs).groupsProcessed
        + (runGroups o (initState staged0) gs).errors.length = gs.length
    ∧ ∀ g ∈ gs, (o g.1).success = false →
        joinErrorRecord g.1 (o g.1).errorMsg ∈ (runGroups o (initState staged0) gs).errors
        ∧ ∀ f ∈ g.2, f ∈ staged0 →
            (∀ g2 ∈ gs, (o g2.1).success = true → f ∉ g2.2) →
            f ∈ (runGroups o (initState staged0) gs).staged := by
  have hp := runGroups_processed o gs (initState staged0)
  have he := runGroups_errors o gs (initState staged0)
  have hsucc : (gs.filter (fun g => (o g.1).success)).length = 2 := by
    have hsplit := @List.length_eq_length_filter_add _ gs (fun g => (o g.1).success)
    omega
  have herrlen : (runGroups o (initState staged0) gs).errors.length = 1 := by
    rw [he]
    simp [initState, length_filterMap_fail o gs, hone]
  refine ⟨?_, herrlen, ?_, ?_⟩
  · rw [hp, hsucc]
    simp [initState]
  · rw [hp, hsucc, herrlen, hlen]
    simp [initState]
  · intro g hg hgf
    constructor
    · rw [he]
      refine List.mem_append.mpr (Or.inr ?_)
      exact List.mem_filterMap.mpr ⟨g, hg, by simp [failRecord, hgf]⟩
    · intro f _ hf0 hnot
      exact (runGroups_staged o gs (initState staged0) f).mpr ⟨hf0, hnot⟩

/-- Witness oracle for claim C4: group B fails with diagnostic text
`boom`, the others succeed. -/
def oracleW : String → JoinOutcome :=
  fun n => if n = "B" then ⟨false, "boom", 0⟩ else ⟨true, "", 7⟩

/-- Witness groups for claim C4. -/
def gsW : List (String × List String) := [("A", ["a1"]), ("B", ["b1"]), ("C", ["c1"])]

/-- Witness for claim C4 at a concrete three-group run whose middle group
fails. -/
theorem orchestrator_failure_isolation_witness :
    gsW.length = 3
    ∧ (gsW.filter (fun g => !(oracleW g.1).success)).length = 1
    ∧ ((runGroups oracleW (initState ["a1", "b1", "c1"]) gsW).groupsProcessed = 2
      ∧ (runGroups oracleW (initState ["a1", "b1", "c1"]) gsW).errors.length = 1
      ∧ (runGroups oracleW (initState ["a1", "b1", "c1"]) gsW).groupsProcessed
          + (runGroups oracleW (initState ["a1", "b1", "c1"]) gsW).errors.length
          = gsW.length
      ∧ ∀ g ∈ gsW, (oracleW g.1).success = false →
          joinErrorRecord g.1 (oracleW g.1).errorMsg
              ∈ (runGroups oracleW (initState ["a1", "b1", "c1"]) gsW).errors
          ∧ ∀ f ∈ g.2, f ∈ (["a1", "b1", "c1"] : List String) →
              (∀ g2 ∈ gsW, (oracleW g2.1).success = true → f ∉ g2.2) →
              f ∈ (runGroups oracleW (initState ["a1", "b1", "c1"]) gsW).staged) :=
  ⟨by decide, by decide,
   orchestrator_failure_isolation gsW oracleW ["a1", "b1", "c1"] (by decide) (by decide)⟩

end OsmoPrepare
